import Mathlib

set_option linter.unusedVariables false

/- Shallow embedding of the mock Apollo configuration server:
   the watcher package (pkg/watcher/watcher.go) and the Apollo route
   package (the facade serving /configs and /configfiles, whose
   parseNamespace / getNamespace / getNamespaceConfig / queryConfig are
   embedded below).  Go maps become association lists (a yaml document has
   unique keys; the list order stands for one iteration order), Go strings
   become Lean String, time.Duration becomes Int nanoseconds, Go error
   results become Option String or Except String.  File I/O and yaml
   unmarshalling are external effects: a source is modelled by what that
   pipeline yields (unreadable, malformed, or a parsed document). -/

/-- The watcher package's Namespace struct: the per-namespace config.
Field properties is Option because Go distinguishes a nil map (absent in
the document) from a present empty map; the Go fields are ReleaseKey,
Properties, Yml, Yaml, JSON, XML. -/
structure Namespace where
  releaseKey : String
  properties : Option (List (String × String))
  yml : String
  yaml : String
  json : String
  xml : String
  deriving DecidableEq, Repr

/-- Value of one app in a ConfigMap: cluster id to namespace id to Namespace. -/
abbrev NamespaceMap := List (String × Namespace)

/-- Map from cluster id to its namespaces (the value type of one app). -/
abbrev ClusterMap := List (String × NamespaceMap)

/-- The watcher package's ConfigMap: app id to cluster id to namespace id
to Namespace, as nested association lists. -/
abbrev ConfigMap := List (String × ClusterMap)

/-- Go map indexing m[k]: the value stored at key k, if any. -/
def lookupA {α : Type} (m : List (String × α)) (k : String) : Option α :=
  match m with
  | [] => none
  | (k2, v) :: rest => if k2 = k then some v else lookupA rest k

/-- The properties-key loop of readConfigMap: the first empty key yields
the error, as in the Go loop over ns.Properties. -/
def validateProps (appKey clusterKey nsKey : String) : List (String × String) → Option String
  | [] => none
  | (k, _) :: rest =>
    if k = "" then
      some ("invalid config key " ++ k ++ " in " ++ appKey ++ "/" ++ clusterKey ++ "/" ++ nsKey)
    else validateProps appKey clusterKey nsKey rest

/-- The namespace loop of readConfigMap: empty namespace key, then the
all-blobs-absent check (Properties == nil && Yml == "" && Yaml == "" &&
XML == ""), then the properties keys.  The yml/yaml/json parse attempts in
the source only log warnings and never change the result, so they do not
appear here. -/
def validateNamespaces (appKey clusterKey : String) : NamespaceMap → Option String
  | [] => none
  | (nsKey, ns) :: rest =>
    if nsKey = "" then
      some ("invalid namespace name " ++ nsKey ++ " in " ++ appKey ++ "/" ++ clusterKey)
    else if ns.properties = none ∧ ns.yml = "" ∧ ns.yaml = "" ∧ ns.xml = "" then
      some ("invalid namespace " ++ nsKey ++ " in " ++ appKey ++ "/" ++ clusterKey)
    else
      match validateProps appKey clusterKey nsKey (ns.properties.getD []) with
      | some e => some e
      | none => validateNamespaces appKey clusterKey rest

/-- The cluster loop of readConfigMap: empty cluster key, empty cluster. -/
def validateClusters (appKey : String) : ClusterMap → Option String
  | [] => none
  | (clusterKey, cluster) :: rest =>
    if clusterKey = "" then
      some ("invalid cluster name " ++ clusterKey ++ " in " ++ appKey)
    else if cluster.isEmpty then
      some ("invalid cluster " ++ clusterKey ++ " in " ++ appKey)
    else
      match validateNamespaces appKey clusterKey cluster with
      | some e => some e
      | none => validateClusters appKey rest

/-- The app loop of readConfigMap: empty app key, empty app. -/
def validateApps : ConfigMap → Option String
  | [] => none
  | (appKey, app) :: rest =>
    if appKey = "" then
      some ("invalid app name " ++ appKey)
    else if app.isEmpty then
      some ("invalid app " ++ appKey)
    else
      match validateClusters appKey app with
      | some e => some e
      | none => validateApps rest

/-- The whole validation block of readConfigMap: the len(cm) == 0 check
followed by the nested loops. -/
def validateConfigMap (cm : ConfigMap) : Option String :=
  if cm.isEmpty then some "invalid config file" else validateApps cm

/-- What reading and unmarshalling the watched source yields: a read error
(afero.ReadFile failed), a yaml.Unmarshal error, or a parsed document. -/
inductive SourceContent where
  | unreadable
  | malformed
  | parsed (cm : ConfigMap)
  deriving DecidableEq, Repr

/-- The watcher's readConfigMap as a state transition on the published
snapshot (the atomic value w.cm; none means nothing was ever stored).
Returns the snapshot after the call and the returned error: on a read
error, an unmarshal error or a validation error the stored snapshot is not
touched; on success the new ConfigMap is stored wholesale. -/
def readConfigMap (src : SourceContent) (st : Option ConfigMap) : Option ConfigMap × Option String :=
  match src with
  | SourceContent.unreadable => (st, some "file read error")
  | SourceContent.malformed => (st, some "yaml unmarshal error")
  | SourceContent.parsed cm =>
    match validateConfigMap cm with
    | some e => (st, some e)
    | none => (some cm, none)

/-- Panic text of the failed type assertion in Config when the atomic
value was never stored. -/
def configNilPanic : String := "panic: interface conversion: nil is not watcher.ConfigMap"

/-- The watcher's Config method, w.cm.Load().(ConfigMap): the unchecked
type assertion on the loaded value panics when nothing was ever stored
(atomic.Value.Load returns nil then); a panic is modelled as the error
branch of Except. -/
def wConfig (st : Option ConfigMap) : Except String ConfigMap :=
  match st with
  | none => Except.error configNilPanic
  | some cm => Except.ok cm

/-- ReloadConfig: the body is exactly one call to readConfigMap.  The
third component lists the change events sent to the update channel during
the call: ReloadConfig never touches that channel. -/
def reloadConfig (src : SourceContent) (st : Option ConfigMap) :
    (Option ConfigMap × Option String) × List Unit :=
  (readConfigMap src st, [])

/-- One turn of the event loop started by New on receiving a file event:
readConfigMap, and on success one empty-struct signal is sent to the
update channel updateChan; on failure the error is only logged. -/
def eventLoopStep (src : SourceContent) (st : Option ConfigMap) :
    (Option ConfigMap × Option String) × List Unit :=
  match readConfigMap src st with
  | (st2, some e) => ((st2, some e), [])
  | (st2, none) => ((st2, none), [()])

/-- One second in the Int-nanosecond model of time.Duration. -/
def oneSecondNs : Int := 1000000000

/-- The watcher package's Config struct (Log modelled by whether a
provider is present, File by its path, WatchInterval in nanoseconds). -/
structure WatcherConfig where
  log : Option Unit
  file : String
  watchInterval : Int
  deriving DecidableEq, Repr

/-- The watcher package's validateConfig: an interval below one second is
raised to one second, a nil logger is replaced by a default provider. -/
def validateConfig (cfg : WatcherConfig) : WatcherConfig :=
  let cfg1 :=
    if cfg.watchInterval < oneSecondNs then
      { cfg with watchInterval := oneSecondNs }
    else cfg
  match cfg1.log with
  | none => { cfg1 with log := some () }
  | some _ => cfg1

/-- Input of New: the result of fw.Add on the source path (an error when
the underlying file-watch library rejects or cannot stat the path), the
size of fw.WatchedFiles afterwards, and what loading the source yields. -/
structure NewInput where
  addError : Option String
  watchedFilesCount : Nat
  src : SourceContent
  deriving DecidableEq, Repr

/-- Outcome of New: the returned Watcher (none when construction returned
nil; otherwise its published snapshot after the initial load), the
returned error, and whether the two background goroutines (the event loop
and the fw.Start monitoring loop) were spawned. -/
structure NewOutcome where
  watcher : Option (Option ConfigMap)
  err : Option String
  eventLoopStarted : Bool
  monitorLoopStarted : Bool
  deriving Repr

/-- The watcher package's New: fail outright if fw.Add errs or the
watched-file count is not one; otherwise spawn both background loops, then
run the one synchronous initial readConfigMap (starting from an empty
atomic value) and return the instance together with that load's error. -/
def watcherNew (inp : NewInput) : NewOutcome :=
  match inp.addError with
  | some e => { watcher := none, err := some e, eventLoopStarted := false, monitorLoopStarted := false }
  | none =>
    if inp.watchedFilesCount ≠ 1 then
      { watcher := none, err := some "got an invalid file path to watch",
        eventLoopStarted := false, monitorLoopStarted := false }
    else
      let r := readConfigMap inp.src none
      { watcher := some r.1, err := r.2, eventLoopStarted := true, monitorLoopStarted := true }

/- ----- the Apollo facade (route package) ----- -/

/-- Scan of filepath.Ext, walking the path from its end: stop without an
extension at a path separator or at the front, stop with one at a dot.
The first argument is the reversed character list, the second the suffix
collected so far. -/
def extFromRev : List Char → List Char → Option (List Char)
  | [], _ => none
  | c :: rest, acc =>
    if c = '/' then none
    else if c = '.' then some (c :: acc)
    else extFromRev rest (c :: acc)

/-- filepath.Ext: the suffix of the last path element starting at its
final dot, or the empty string. -/
def filepathExt (path : String) : String :=
  match extFromRev path.data.reverse [] with
  | some ext => String.mk ext
  | none => ""

/-- strings.TrimSuffix: drop suff from the end of s when it is a suffix. -/
def trimSuffix (s suff : String) : String :=
  if suff.data.isSuffixOf s.data then
    String.mk (s.data.take (s.data.length - suff.data.length))
  else s

/-- The facade's parseNamespace (the Go parameter is called namespace):
strip a trailing .properties, .yml or .xml and return it as the format;
any other token is returned whole with format .properties. -/
def parseNamespace (token : String) : String × String :=
  let ext := filepathExt token
  if ext = ".properties" ∨ ext = ".yml" ∨ ext = ".xml" then
    (trimSuffix token ext, ext)
  else
    (token, ".properties")

/-- Indexing v[cluster][namespace] on one app value: a missing cluster
behaves as an empty map, as Go zero-value indexing does. -/
def appLookup (v : ClusterMap) (cluster nsName : String) : Option Namespace :=
  (lookupA v cluster).bind (fun nsm => lookupA nsm nsName)

/-- The inner loop of the facade's getNamespace: range over the apps of
one watcher's ConfigMap and return the first hit of v[cluster][namespace].
The requested app id does not take part. -/
def findInConfigMap (cm : ConfigMap) (cluster nsName : String) : Option Namespace :=
  match cm with
  | [] => none
  | (_, v) :: rest =>
    match appLookup v cluster nsName with
    | some ns => some ns
    | none => findInConfigMap rest cluster nsName

/-- The facade's getNamespace over the owned watchers' current snapshots
in registration order (each watcher's w.Config() value).  The appID
parameter is received, as in the source, but never used. -/
def getNamespace (snapshots : List ConfigMap) (appID cluster nsName : String) :
    Except String Namespace :=
  match snapshots with
  | [] => Except.error "namespace no found"
  | cm :: rest =>
    match findInConfigMap cm cluster nsName with
    | some ns => Except.ok ns
    | none => getNamespace rest appID cluster nsName

/-- The untyped value (Go interface) the facade serializes as the
configurations payload: either the map-of-one-key content wrapper or the
properties map itself (which may be the nil map). -/
inductive ConfigValue where
  | contentWrapper (content : String)
  | propertiesValue (props : Option (List (String × String)))
  deriving DecidableEq, Repr

/-- The facade's getNamespaceConfig: .yml yields the content wrapper of
the Yaml field, .xml the content wrapper of the XML field, .properties the
Properties map; every other extension errs (non-support format). -/
def getNamespaceConfig (extension : String) (ns : Namespace) : Except String ConfigValue :=
  if extension = ".yml" then Except.ok (ConfigValue.contentWrapper ns.yaml)
  else if extension = ".xml" then Except.ok (ConfigValue.contentWrapper ns.xml)
  else if extension = ".properties" then Except.ok (ConfigValue.propertiesValue ns.properties)
  else Except.error "non-support format"

/-- The two facade read-path failures, as the handlers distinguish them
(each answers 404 with its own log line). -/
inductive QueryError where
  | namespaceNotFound
  | formatNotSupported
  deriving DecidableEq, Repr

/-- The composed read path of queryConfig / queryConfigJSON: parse the
namespace token, look the namespace up, project the requested format.
Returns the canonical namespace id and the projected value. -/
def queryConfig (snapshots : List ConfigMap) (appID cluster token : String) :
    Except QueryError (String × ConfigValue) :=
  match getNamespace snapshots appID cluster (parseNamespace token).1 with
  | Except.error _ => Except.error QueryError.namespaceNotFound
  | Except.ok ns =>
    match getNamespaceConfig (parseNamespace token).2 ns with
    | Except.error _ => Except.error QueryError.formatNotSupported
    | Except.ok cfg => Except.ok ((parseNamespace token).1, cfg)

/- ----- concrete fixtures, after the stub configs of the route tests ----- -/

/-- A namespace like the test stub ns: release key abc, one property. -/
def nsStub : Namespace :=
  { releaseKey := "abc"
    properties := some [("mysql", "mysql://root@localhost/mysql")]
    yml := "", yaml := "", json := "", xml := "" }

/-- A namespace like the test stub ns2: present yaml, json and xml blobs
(the yaml and json text is malformed for their formats). -/
def ns2Stub : Namespace :=
  { releaseKey := "abc"
    properties := some []
    yml := "[raw]\nkey = value\n"
    yaml := "[raw]\nkey = value\n"
    json := "[raw]\nkey = value\n"
    xml := "plain text" }

/-- A snapshot whose only app is otherApp, holding cluster/ns. -/
def cmOtherApp : ConfigMap := [("otherApp", [("cluster", [("ns", nsStub)])])]

/-- A snapshot whose only app is app, holding cluster/ns and cluster/ns2. -/
def cmApp : ConfigMap := [("app", [("cluster", [("ns", nsStub), ("ns2", ns2Stub)])])]

/-- A New input whose file-watch registration was rejected (fw.Add gave an
error, no file is watched); the content behind the path is irrelevant. -/
def badNewInput : NewInput :=
  { addError := some "no such file or directory", watchedFilesCount := 0,
    src := SourceContent.parsed [] }

/-- A New input whose registration succeeded but whose content is
malformed yaml. -/
def malformedNewInput : NewInput :=
  { addError := none, watchedFilesCount := 1, src := SourceContent.malformed }

/- ----- acceptance conditions transcribed from the specification, for the
   validation-characterization claim ----- -/

/-- Spec acceptance condition on one namespace entry: non-empty key, not
(properties nil and yml, yaml, xml all empty), no empty properties key. -/
def GoodNamespaceEntry (p : String × Namespace) : Prop :=
  p.1 ≠ "" ∧
  ¬(p.2.properties = none ∧ p.2.yml = "" ∧ p.2.yaml = "" ∧ p.2.xml = "") ∧
  ∀ kv ∈ p.2.properties.getD [], kv.1 ≠ ""

/-- Spec acceptance condition on one cluster entry: non-empty key, at
least one namespace, all namespaces acceptable. -/
def GoodClusterEntry (p : String × NamespaceMap) : Prop :=
  p.1 ≠ "" ∧ p.2 ≠ [] ∧ ∀ q ∈ p.2, GoodNamespaceEntry q

/-- Spec acceptance condition on one app entry: non-empty key, at least
one cluster, all clusters acceptable. -/
def GoodAppEntry (p : String × ClusterMap) : Prop :=
  p.1 ≠ "" ∧ p.2 ≠ [] ∧ ∀ q ∈ p.2, GoodClusterEntry q

/-- Spec acceptance condition on a whole document: non-empty top level and
every app acceptable.  Nothing in it looks at the json blob or at whether
any blob parses in its own format. -/
def GoodConfig (cm : ConfigMap) : Prop :=
  cm ≠ [] ∧ ∀ p ∈ cm, GoodAppEntry p

/- ===== theorems ===== -/

/- helper lemmas on readConfigMap, shared by several results -/

lemma readConfigMap_error_state (src : SourceContent) (st : Option ConfigMap) (e : String)
    (h : (readConfigMap src st).2 = some e) : (readConfigMap src st).1 = st := by
  cases src with
  | unreadable => rfl
  | malformed => rfl
  | parsed cm =>
    cases hv : validateConfigMap cm with
    | some e2 => simp [readConfigMap, hv]
    | none => simp [readConfigMap, hv] at h

lemma readConfigMap_ok_state (src : SourceContent) (st : Option ConfigMap)
    (h : (readConfigMap src st).2 = none) :
    ∃ cm, src = SourceContent.parsed cm ∧ validateConfigMap cm = none ∧
      (readConfigMap src st).1 = some cm := by
  cases src with
  | unreadable => simp [readConfigMap] at h
  | malformed => simp [readConfigMap] at h
  | parsed cm =>
    cases hv : validateConfigMap cm with
    | some e2 => simp [readConfigMap, hv] at h
    | none => exact ⟨cm, rfl, hv, by simp [readConfigMap, hv]⟩

/-- C3, failing evaluation: parseNamespace does not strip a trailing
.yaml or .json (the token comes back whole with default format
.properties), while it does strip .yml, .properties; an extension-less
token gets the default.  The route package's own TestParseNamespace
demands ns2.yaml to give (ns2, .yaml) and ns2.json to give (ns2, .json). -/
theorem parseNamespace_yaml_json_not_stripped :
    parseNamespace "ns2.yaml" = ("ns2.yaml", ".properties") ∧
    parseNamespace "ns2.json" = ("ns2.json", ".properties") ∧
    parseNamespace "ns2.yml" = ("ns2", ".yml") ∧
    parseNamespace "ns.properties" = ("ns", ".properties") ∧
    parseNamespace "ns.xml" = ("ns", ".xml") ∧
    parseNamespace "ns" = ("ns", ".properties") := by
  refine ⟨?_, ?_, ?_, ?_, ?_, ?_⟩ <;> decide

/-- C2, failing evaluation: getNamespaceConfig rejects the .yaml and
.json formats with the non-support error, while .yml yields the content
wrapper of the Yaml field, .xml the content wrapper of the XML field and
.properties the properties map.  The route package's own
TestGetNamespaceConfig demands .yaml and .json to succeed with content
wrappers of the yaml and json blobs. -/
theorem getNamespaceConfig_yaml_json_rejected :
    getNamespaceConfig ".yaml" ns2Stub = Except.error "non-support format" ∧
    getNamespaceConfig ".json" ns2Stub = Except.error "non-support format" ∧
    getNamespaceConfig ".yml" ns2Stub = Except.ok (ConfigValue.contentWrapper ns2Stub.yaml) ∧
    getNamespaceConfig ".xml" ns2Stub = Except.ok (ConfigValue.contentWrapper ns2Stub.xml) ∧
    getNamespaceConfig ".properties" nsStub = Except.ok (ConfigValue.propertiesValue nsStub.properties) :=
  ⟨rfl, rfl, rfl, rfl, rfl⟩

/-- C7, counterexample: on a Watcher that never published a snapshot,
Config panics (the type assertion on the nil atomic value fails) instead
of returning a well-defined not-yet-available indication. -/
theorem wConfig_unpublished_panics : wConfig none = Except.error configNilPanic := rfl

/-- C7 as amended: Config is a plain non-blocking read of the atomic
value, but before any successful publish it panics via the failed type
assertion; once a snapshot was published it returns that snapshot. -/
theorem wConfig_spec (st : Option ConfigMap) :
    (st = none → wConfig st = Except.error configNilPanic) ∧
    (∀ cm, st = some cm → wConfig st = Except.ok cm) := by
  cases st <;> simp [wConfig]

lemma validateConfig_watchInterval (cfg : WatcherConfig) :
    (validateConfig cfg).watchInterval =
      if cfg.watchInterval < oneSecondNs then oneSecondNs else cfg.watchInterval := by
  cases hl : cfg.log <;> by_cases h : cfg.watchInterval < oneSecondNs <;>
    simp [validateConfig, hl, h]

/-- C9: an interval below one second is silently raised to exactly one
second by the watcher's validateConfig, an interval of at least one second
is kept unchanged, and the effective interval is never below the floor. -/
theorem validateConfig_interval_floor (cfg : WatcherConfig) :
    (cfg.watchInterval < oneSecondNs → (validateConfig cfg).watchInterval = oneSecondNs) ∧
    (oneSecondNs ≤ cfg.watchInterval → (validateConfig cfg).watchInterval = cfg.watchInterval) ∧
    oneSecondNs ≤ (validateConfig cfg).watchInterval := by
  rw [validateConfig_watchInterval]
  refine ⟨fun h => if_pos h, fun h => if_neg (by omega), ?_⟩
  split <;> omega

/-- C1, counterexample: the only snapshot has no app named app at all —
the requested triple (app, cluster, ns) is present in no snapshot — yet
the lookup returns the namespace stored under the different app id
otherApp instead of failing with the namespace-not-found error. -/
theorem getNamespace_cross_app_hit :
    getNamespace [cmOtherApp] "app" "cluster" "ns" = Except.ok nsStub ∧
    lookupA cmOtherApp "app" = none :=
  ⟨rfl, rfl⟩

/-- C1 as amended: the lookup iterates the owned watchers in registration
order but ignores the requested app id entirely — the result is the same
for any two app ids; it fails with the namespace-not-found error exactly
when no watcher's snapshot holds the (cluster, namespace) pair under any
of its apps; and a successful result is the hit found in the first
snapshot holding such a pair (every earlier snapshot holding none). -/
theorem getNamespace_first_match_ignoring_app (ws : List ConfigMap) (a a2 cluster n : String) :
    getNamespace ws a cluster n = getNamespace ws a2 cluster n ∧
    (getNamespace ws a cluster n = Except.error "namespace no found" ↔
      ∀ cm ∈ ws, findInConfigMap cm cluster n = none) ∧
    (∀ v, getNamespace ws a cluster n = Except.ok v →
      ∃ pre c post, ws = pre ++ c :: post ∧ findInConfigMap c cluster n = some v ∧
        ∀ cm ∈ pre, findInConfigMap cm cluster n = none) := by
  induction ws with
  | nil =>
    refine ⟨rfl, by simp [getNamespace], ?_⟩
    intro v h
    simp [getNamespace] at h
  | cons cm rest ih =>
    cases hf : findInConfigMap cm cluster n with
    | some ns =>
      refine ⟨by simp [getNamespace, hf], by simp [getNamespace, hf], ?_⟩
      intro v h
      simp [getNamespace, hf] at h
      exact ⟨[], cm, rest, rfl, by rw [hf, h], by simp⟩
    | none =>
      refine ⟨by simp [getNamespace, hf, ih.1], ?_, ?_⟩
      · rw [show getNamespace (cm :: rest) a cluster n = getNamespace rest a cluster n by
          simp [getNamespace, hf]]
        rw [ih.2.1]
        simp [hf]
      · intro v h
        rw [show getNamespace (cm :: rest) a cluster n = getNamespace rest a cluster n by
          simp [getNamespace, hf]] at h
        obtain ⟨pre, c, post, h1, h2, h3⟩ := ih.2.2 v h
        refine ⟨cm :: pre, c, post, by rw [List.cons_append, h1], h2, ?_⟩
        intro cm2 hm
        rcases List.mem_cons.mp hm with h4 | h4
        · rw [h4]; exact hf
        · exact h3 cm2 h4

/-- C6, counterexample: when the file-watch registration of the source is
rejected (fw.Add errs, e.g. the path cannot be stat-ed), construction
fails outright: no Watcher instance is returned and neither background
activity is started, instead of returning a partially usable instance. -/
theorem watcherNew_registration_failure :
    (watcherNew badNewInput).watcher = none ∧
    (watcherNew badNewInput).eventLoopStarted = false ∧
    (watcherNew badNewInput).monitorLoopStarted = false ∧
    (watcherNew badNewInput).err = some "no such file or directory" :=
  ⟨rfl, rfl, rfl, rfl⟩

/-- C6 as amended: for every source whose file-watch registration
succeeds — however unreadable or invalid its content — construction
returns the Watcher instance (whose published snapshot is whatever the
initial load left) together with the error of that one synchronous
initial load, and both background activities are started regardless of
whether the load succeeded; only a failed registration makes construction
fail outright. -/
theorem watcherNew_returns_instance_after_registration (inp : NewInput)
    (hadd : inp.addError = none) (hcount : inp.watchedFilesCount = 1) :
    (watcherNew inp).watcher = some (readConfigMap inp.src none).1 ∧
    (watcherNew inp).err = (readConfigMap inp.src none).2 ∧
    (watcherNew inp).eventLoopStarted = true ∧
    (watcherNew inp).monitorLoopStarted = true := by
  obtain ⟨a, w, s⟩ := inp
  simp only at hadd hcount
  subst hadd hcount
  simp [watcherNew]

/-- C6 witness: a registered source whose content is malformed yaml — the
instance comes back with an empty published snapshot, the unmarshal error
is returned, and both background loops were started. -/
theorem watcherNew_returns_instance_witness :
    (watcherNew malformedNewInput).watcher = some none ∧
    (watcherNew malformedNewInput).err = some "yaml unmarshal error" ∧
    (watcherNew malformedNewInput).eventLoopStarted = true ∧
    (watcherNew malformedNewInput).monitorLoopStarted = true := by
  have h := watcherNew_returns_instance_after_registration malformedNewInput rfl rfl
  exact ⟨h.1, h.2.1, h.2.2.1, h.2.2.2⟩

/-- C4: whatever the prior state, a rejected load (unreadable source,
malformed document, or failed validation) returns an error and leaves the
published snapshot exactly as it was — so a read right after a failed
reload over a previously published snapshot still returns the prior
values — while an accepted load replaces the snapshot wholesale with the
newly parsed document. -/
theorem readConfigMap_retention (src : SourceContent) (st : Option ConfigMap) :
    (∀ e, (readConfigMap src st).2 = some e →
      (readConfigMap src st).1 = st ∧
      ∀ cm0, st = some cm0 → wConfig (readConfigMap src st).1 = Except.ok cm0) ∧
    ((readConfigMap src st).2 = none →
      ∃ cm, src = SourceContent.parsed cm ∧ (readConfigMap src st).1 = some cm) := by
  constructor
  · intro e he
    have h1 := readConfigMap_error_state src st e he
    refine ⟨h1, ?_⟩
    intro cm0 h0
    rw [h1, h0]
    rfl
  · intro h
    obtain ⟨cm, h1, _, h3⟩ := readConfigMap_ok_state src st h
    exact ⟨cm, h1, h3⟩

/-- C8: ReloadConfig is exactly one synchronous readConfigMap — on an
accepted document it publishes the new snapshot and returns no error, on
a rejected load it keeps the state and returns the error — and it sends
nothing on the update channel in every case, while the event-loop path
taken for a genuine source event does emit one signal on success. -/
theorem reloadConfig_no_event (src : SourceContent) (st : Option ConfigMap) :
    (reloadConfig src st).2 = [] ∧
    (reloadConfig src st).1 = readConfigMap src st ∧
    (∀ cm, src = SourceContent.parsed cm → validateConfigMap cm = none →
      (reloadConfig src st).1 = (some cm, none)) ∧
    (∀ e, (readConfigMap src st).2 = some e → (reloadConfig src st).1 = (st, some e)) ∧
    ((readConfigMap src st).2 = none → (eventLoopStep src st).2 = [()]) := by
  refine ⟨rfl, rfl, ?_, ?_, ?_⟩
  · intro cm h1 h2
    subst h1
    simp [reloadConfig, readConfigMap, h2]
  · intro e he
    have h1 := readConfigMap_error_state src st e he
    show readConfigMap src st = (st, some e)
    calc readConfigMap src st
        = ((readConfigMap src st).1, (readConfigMap src st).2) := rfl
      _ = (st, some e) := by rw [h1, he]
  · intro h
    cases hr : readConfigMap src st with
    | mk st2 r2 =>
      rw [hr] at h
      simp only at h
      subst h
      simp [eventLoopStep, hr]

lemma parseNamespace_ext_mem (token : String) :
    (parseNamespace token).2 = ".properties" ∨ (parseNamespace token).2 = ".yml" ∨
      (parseNamespace token).2 = ".xml" := by
  by_cases h : filepathExt token = ".properties" ∨ filepathExt token = ".yml" ∨
      filepathExt token = ".xml"
  · rw [show parseNamespace token = (trimSuffix token (filepathExt token), filepathExt token) by
      simp [parseNamespace, h]]
    exact h
  · rw [show parseNamespace token = (token, ".properties") by simp [parseNamespace, h]]
    left
    rfl

lemma getNamespaceConfig_total (extension : String) (ns : Namespace)
    (h : extension = ".properties" ∨ extension = ".yml" ∨ extension = ".xml") :
    ∃ v, getNamespaceConfig extension ns = Except.ok v := by
  rcases h with h | h | h <;> subst h <;> exact ⟨_, rfl⟩

/-- C10: the format produced by parseNamespace is always one of
.properties, .yml, .xml; getNamespaceConfig succeeds on each of the
three for every namespace; hence along the composed read path (parse the
token, look the namespace up, project the format) the format-not-supported
failure is unreachable. -/
theorem queryConfig_no_format_error (snapshots : List ConfigMap)
    (appID cluster token : String) (ns : Namespace) :
    ((parseNamespace token).2 = ".properties" ∨ (parseNamespace token).2 = ".yml" ∨
      (parseNamespace token).2 = ".xml") ∧
    (∃ v, getNamespaceConfig (parseNamespace token).2 ns = Except.ok v) ∧
    queryConfig snapshots appID cluster token ≠ Except.error QueryError.formatNotSupported := by
  refine ⟨parseNamespace_ext_mem token,
    getNamespaceConfig_total _ ns (parseNamespace_ext_mem token), ?_⟩
  unfold queryConfig
  cases hg : getNamespace snapshots appID cluster (parseNamespace token).1 with
  | error e => simp
  | ok ns1 =>
    obtain ⟨v, hv⟩ := getNamespaceConfig_total _ ns1 (parseNamespace_ext_mem token)
    simp [hv]

/- helper lemmas characterizing each validation loop -/

lemma validateProps_none_iff (a c n : String) (ps : List (String × String)) :
    validateProps a c n ps = none ↔ ∀ kv ∈ ps, kv.1 ≠ "" := by
  induction ps with
  | nil => simp [validateProps]
  | cons hd tl ih =>
    obtain ⟨k, v⟩ := hd
    by_cases h : k = ""
    · simp [validateProps, h]
    · simp [validateProps, h, ih]

lemma validateNamespaces_none_iff (a c : String) (l : NamespaceMap) :
    validateNamespaces a c l = none ↔ ∀ p ∈ l, GoodNamespaceEntry p := by
  induction l with
  | nil => simp [validateNamespaces]
  | cons hd tl ih =>
    obtain ⟨nsKey, ns⟩ := hd
    by_cases h1 : nsKey = ""
    · apply iff_of_false
      · simp [validateNamespaces, h1]
      · intro hall
        obtain ⟨ha, _, _⟩ := hall (nsKey, ns) (List.mem_cons_self _ _)
        exact ha h1
    · by_cases h2 : ns.properties = none ∧ ns.yml = "" ∧ ns.yaml = "" ∧ ns.xml = ""
      · apply iff_of_false
        · simp [validateNamespaces, h1, h2]
        · intro hall
          obtain ⟨_, hb, _⟩ := hall (nsKey, ns) (List.mem_cons_self _ _)
          exact hb h2
      · cases hp : validateProps a c nsKey (ns.properties.getD []) with
        | some e =>
          apply iff_of_false
          · simp [validateNamespaces, h1, h2, hp]
          · intro hall
            obtain ⟨_, _, hprops⟩ := hall (nsKey, ns) (List.mem_cons_self _ _)
            rw [← validateProps_none_iff a c nsKey, hp] at hprops
            simp at hprops
        | none =>
          rw [show validateNamespaces a c ((nsKey, ns) :: tl) = validateNamespaces a c tl by
            simp [validateNamespaces, h1, h2, hp]]
          rw [ih]
          constructor
          · intro ht p hp2
            rcases List.mem_cons.mp hp2 with h3 | h3
            · rw [h3]
              have hpp := (validateProps_none_iff a c nsKey (ns.properties.getD [])).mp hp
              exact ⟨h1, h2, hpp⟩
            · exact ht p h3
          · intro hc p hp2
            exact hc p (List.mem_cons_of_mem _ hp2)

lemma validateClusters_none_iff (a : String) (l : ClusterMap) :
    validateClusters a l = none ↔ ∀ p ∈ l, GoodClusterEntry p := by
  induction l with
  | nil => simp [validateClusters]
  | cons hd tl ih =>
    obtain ⟨ck, cl⟩ := hd
    by_cases h1 : ck = ""
    · apply iff_of_false
      · simp [validateClusters, h1]
      · intro hall
        obtain ⟨ha, _, _⟩ := hall (ck, cl) (List.mem_cons_self _ _)
        exact ha h1
    · by_cases h2 : cl = []
      · apply iff_of_false
        · subst h2
          simp [validateClusters, h1]
        · intro hall
          obtain ⟨_, hb, _⟩ := hall (ck, cl) (List.mem_cons_self _ _)
          exact hb h2
      · have hne : cl.isEmpty = false := by
          rw [show (cl.isEmpty = false) = ¬(cl.isEmpty = true) by simp]
          rw [List.isEmpty_iff]
          exact h2
        cases hn : validateNamespaces a ck cl with
        | some e =>
          apply iff_of_false
          · simp [validateClusters, h1, hne, hn]
          · intro hall
            obtain ⟨_, _, hns⟩ := hall (ck, cl) (List.mem_cons_self _ _)
            rw [← validateNamespaces_none_iff a ck, hn] at hns
            simp at hns
        | none =>
          rw [show validateClusters a ((ck, cl) :: tl) = validateClusters a tl by
            simp [validateClusters, h1, hne, hn]]
          rw [ih]
          constructor
          · intro ht p hp2
            rcases List.mem_cons.mp hp2 with h3 | h3
            · rw [h3]
              have hns := (validateNamespaces_none_iff a ck cl).mp hn
              exact ⟨h1, h2, hns⟩
            · exact ht p h3
          · intro hc p hp2
            exact hc p (List.mem_cons_of_mem _ hp2)

lemma validateApps_none_iff (l : ConfigMap) :
    validateApps l = none ↔ ∀ p ∈ l, GoodAppEntry p := by
  induction l with
  | nil => simp [validateApps]
  | cons hd tl ih =>
    obtain ⟨ak, app⟩ := hd
    by_cases h1 : ak = ""
    · apply iff_of_false
      · simp [validateApps, h1]
      · intro hall
        obtain ⟨ha, _, _⟩ := hall (ak, app) (List.mem_cons_self _ _)
        exact ha h1
    · by_cases h2 : app = []
      · apply iff_of_false
        · subst h2
          simp [validateApps, h1]
        · intro hall
          obtain ⟨_, hb, _⟩ := hall (ak, app) (List.mem_cons_self _ _)
          exact hb h2
      · have hne : app.isEmpty = false := by
          rw [show (app.isEmpty = false) = ¬(app.isEmpty = true) by simp]
          rw [List.isEmpty_iff]
          exact h2
        cases hn : validateClusters ak app with
        | some e =>
          apply iff_of_false
          · simp [validateApps, h1, hne, hn]
          · intro hall
            obtain ⟨_, _, hcl⟩ := hall (ak, app) (List.mem_cons_self _ _)
            rw [← validateClusters_none_iff ak, hn] at hcl
            simp at hcl
        | none =>
          rw [show validateApps ((ak, app) :: tl) = validateApps tl by
            simp [validateApps, h1, hne, hn]]
          rw [ih]
          constructor
          · intro ht p hp2
            rcases List.mem_cons.mp hp2 with h3 | h3
            · rw [h3]
              have hcl := (validateClusters_none_iff ak app).mp hn
              exact ⟨h1, h2, hcl⟩
            · exact ht p h3
          · intro hc p hp2
            exact hc p (List.mem_cons_of_mem _ hp2)

/-- C5: the load's validation accepts exactly the documents with a
non-empty top level in which every app, cluster and namespace key is
non-empty, every app has a cluster, every cluster has a namespace, no
namespace has nil properties together with empty yml, yaml and xml blobs
(so a json-only namespace is rejected), and no properties key is empty —
and on every accepted document the snapshot is published, the content of
the yml, yaml and json blobs (malformed or not in their own formats)
playing no part in acceptance. -/
theorem validateConfigMap_characterization (cm : ConfigMap) (st : Option ConfigMap) :
    (validateConfigMap cm = none ↔ GoodConfig cm) ∧
    (GoodConfig cm → readConfigMap (SourceContent.parsed cm) st = (some cm, none)) := by
  have h : validateConfigMap cm = none ↔ GoodConfig cm := by
    unfold validateConfigMap GoodConfig
    by_cases h0 : cm = []
    · subst h0
      simp
    · rw [if_neg (by simpa using h0), validateApps_none_iff]
      simp [h0]
  refine ⟨h, ?_⟩
  intro hg
  have hv := h.mpr hg
  simp [readConfigMap, hv]
